import Mathlib

/-
Shallow embedding of the transparent field-encryption / HMAC-indexing /
cache-invalidation layer of pkg/database/database.go from the
exposure-notifications-verification-server repository.

Go strings are raw byte sequences; we model them as Lean strings with one
byte per character (exact for the single-byte values that arise here), so
the Go conversions []byte(s) and string(b) become strBytes and bytesToStr.

External collaborators (the Key Manager, the base64util decoder, the
per-database HMAC hash function, the cache Delete call, and the SHA-512
compression primitive inside crypto/hmac) are parameters of the embedded
functions, mirroring their contracts in section 6 of the specification.
-/

-- ## Go reflection values and gorm scopes

/-- A Go interface value held by a record field: either a string, or some
other value together with its fmt %v rendering (used by callbackPurgeCache). -/
inductive GoValue where
  | str (s : String)
  | other (rendered : String)
deriving DecidableEq

/-- The fmt.Sprintf %v rendering of a field value. -/
def renderValue : GoValue → String
  | .str s => s
  | .other r => r

/-- A gorm record field as seen through reflection: its name, whether the
reflected value IsValid and CanInterface, and the interface value (none
models a nil interface value, e.g. a nil pointer field). -/
structure GoField where
  name : String
  valid : Bool
  canInterface : Bool
  value : Option GoValue
deriving DecidableEq

/-- A gorm scope: the in-flight record during one persistence operation.
scopeErr holds the error signalled via scope.Err, logs the scope.Log lines. -/
structure Scope where
  tableName : String
  fields : List GoField
  scopeErr : Option String
  logs : List String
deriving DecidableEq

/-- scope.HasError. -/
def Scope.hasError (s : Scope) : Bool := s.scopeErr.isSome

/-- scope.FieldByName: the first field with the given name (none = nil field). -/
def Scope.findField (s : Scope) (n : String) : Option GoField :=
  s.fields.find? (fun f => f.name = n)

/-- field.Set by field name: overwrites the value of the named field. -/
def Scope.setField (s : Scope) (n : String) (v : GoValue) : Scope :=
  { s with fields := s.fields.map (fun f => if f.name = n then { f with value := some v } else f) }

/-- scope.Err: records the error on the scope. -/
def Scope.err (s : Scope) (e : String) : Scope :=
  { s with scopeErr := some e }

/-- scope.Log: appends a log line. -/
def Scope.log (s : Scope) (m : String) : Scope :=
  { s with logs := s.logs ++ [m] }

-- ## getFieldString

/-- Result of getFieldString: the field pointer (none when FieldByName found
nothing), the string value, and the ok flag. -/
structure FieldString where
  field : Option GoField
  value : String
  ok : Bool
deriving DecidableEq

/-- getFieldString from database.go: looks up the field by name and returns
its string value; ok is false when the field is absent, invalid, cannot
interface, holds nil, or is not a string. -/
def getFieldString (scope : Scope) (name : String) : FieldString :=
  match scope.findField name with
  | none => ⟨none, "", false⟩
  | some f =>
    if f.valid = false then ⟨some f, "", false⟩
    else if f.canInterface = false then ⟨some f, "", false⟩
    else
      match f.value with
      | none => ⟨some f, "", false⟩
      | some (.str s) => ⟨some f, s, true⟩
      | some (.other _) => ⟨some f, "", false⟩

-- ## Byte/string conversions and base64 (encoding/base64, Raw = unpadded)

/-- Go []byte(s) under the one-byte-per-character convention. -/
def strBytes (s : String) : List Nat := s.data.map Char.toNat

/-- Go string(b) under the one-byte-per-character convention. -/
def bytesToStr (bs : List Nat) : String := String.mk (bs.map Char.ofNat)

/-- The standard base64 alphabet (base64.RawStdEncoding). -/
def base64StdAlphabet : List Char :=
  ("ABCDEFGHIJKLMNOPQRSTUVWXYZabcdefghijklmnopqrstuvwxyz0123456789+/").toList

/-- The URL-safe base64 alphabet (base64.RawURLEncoding). -/
def base64URLAlphabet : List Char :=
  ("ABCDEFGHIJKLMNOPQRSTUVWXYZabcdefghijklmnopqrstuvwxyz0123456789-_").toList

/-- Character of a 6-bit group in the given alphabet. -/
def base64Char (alpha : List Char) (i : Nat) : Char := alpha.getD i 'A'

/-- Unpadded base64 of a byte list: 3 bytes become 4 characters, a 1- or
2-byte tail becomes 2 or 3 characters with no padding. -/
def base64Chunks (alpha : List Char) : List Nat → List Char
  | [] => []
  | [b1] => [base64Char alpha (b1 / 4), base64Char alpha (b1 % 4 * 16)]
  | [b1, b2] =>
      [base64Char alpha (b1 / 4), base64Char alpha (b1 % 4 * 16 + b2 / 16),
       base64Char alpha (b2 % 16 * 4)]
  | b1 :: b2 :: b3 :: rest =>
      base64Char alpha (b1 / 4) :: base64Char alpha (b1 % 4 * 16 + b2 / 16) ::
      base64Char alpha (b2 % 16 * 4 + b3 / 64) :: base64Char alpha (b3 % 64) ::
      base64Chunks alpha rest

/-- base64.RawStdEncoding.EncodeToString. -/
def base64RawStdEncode (bs : List Nat) : String :=
  String.mk (base64Chunks base64StdAlphabet bs)

/-- base64.RawURLEncoding.EncodeToString. -/
def base64RawURLEncode (bs : List Nat) : String :=
  String.mk (base64Chunks base64URLAlphabet bs)

-- ## crypto/hmac over SHA-512 and the HMAC helpers of database.go

/-- crypto/hmac with sha512.New, parametric in the SHA-512 compression
function sha (an external primitive): keys longer than the 128-byte block
are first hashed, the key is zero-padded to the block size, and the digest
is sha(opad ++ sha(ipad ++ data)). -/
def hmacSha512 (sha : List Nat → List Nat) (key data : List Nat) : List Nat :=
  let blockSize := 128
  let key0 := if key.length > blockSize then sha key else key
  let keyPadded := key0 ++ List.replicate (blockSize - key0.length) 0
  let ipad := keyPadded.map (fun b => b ^^^ 0x36)
  let opad := keyPadded.map (fun b => b ^^^ 0x5c)
  sha (opad ++ sha (ipad ++ data))

/-- initialHMAC from database.go: errors when no key is configured, else
HMAC-SHA512 of the data under the first (primary) key, base64
RawURLEncoding encoded. -/
def initialHMAC (sha : List Nat → List Nat) (keys : List (List Nat)) (data : String) :
    Except String String :=
  match keys with
  | [] => .error ("expected at least 1 hmac key")
  | k :: _ => .ok (base64RawURLEncode (hmacSha512 sha k (strBytes data)))

/-- allAllowedHMACs from database.go: one signature per key, in key order
(the hash Write call cannot fail in the embedding, so the error branch of
the Go loop is dead and the result is always ok). -/
def allAllowedHMACs (sha : List Nat → List Nat) (keys : List (List Nat)) (data : String) :
    Except String (List String) :=
  .ok (keys.map (fun key => base64RawURLEncode (hmacSha512 sha key (strBytes data))))

-- ## callbackKMSEncrypt

/-- Result of one run of the encrypt callback: the final scope and the
number of Key Manager Encrypt invocations it performed. -/
structure EncryptResult where
  scope : Scope
  encryptCalls : Nat
deriving DecidableEq

/-- callbackKMSEncrypt from database.go, parametric in the Key Manager
Encrypt contract (keyID and plaintext bytes to ciphertext bytes or error).
Mirrors the source control flow: after the cache-reuse branch sets the real
column from the ciphertext cache, execution falls through to the Key
Manager Encrypt call (the source has no return statement there). -/
def callbackKMSEncrypt (encrypt : String → List Nat → Except String (List Nat))
    (keyID table column : String) (scope : Scope) : EncryptResult :=
  if scope.tableName ≠ table then ⟨scope, 0⟩
  else if scope.hasError then ⟨scope, 0⟩
  else
    let real := getFieldString scope column
    if real.ok = false then
      ⟨scope.log ("skipping encryption, " ++ column ++ " is not a string"), 0⟩
    else if real.value = "" then
      ⟨scope.log ("skipping encryption, " ++ column ++ " is blank"), 0⟩
    else
      let plaintext := real.value
      let ptCache := getFieldString scope (column ++ "PlaintextCache")
      let ctCache := getFieldString scope (column ++ "CiphertextCache")
      let ptrField := (getFieldString scope (column ++ "Ptr")).field
      let scope1 :=
        if ptCache.ok && ctCache.ok && plaintext = ptCache.value then
          scope.setField column (.str ctCache.value)
        else scope
      match encrypt keyID (strBytes plaintext) with
      | .error e => ⟨scope1.err ("failed to encrypt " ++ column ++ ": " ++ e), 1⟩
      | .ok b =>
        let ciphertext := base64RawStdEncode b
        let scope2 := scope1.setField column (.str ciphertext)
        let scope3 :=
          match ptrField with
          | some _ => scope2.setField (column ++ "Ptr") (.str ciphertext)
          | none => scope2
        let scope4 :=
          if ptCache.ok then scope3.setField (column ++ "PlaintextCache") (.str plaintext)
          else scope3
        let scope5 :=
          if ctCache.ok then scope4.setField (column ++ "CiphertextCache") (.str ciphertext)
          else scope4
        ⟨scope5, 1⟩

-- ## callbackKMSDecrypt

/-- Result of one run of the decrypt callback: the final scope and the
number of Key Manager Decrypt invocations it performed. -/
structure DecryptResult where
  scope : Scope
  decryptCalls : Nat
deriving DecidableEq

/-- callbackKMSDecrypt from database.go, parametric in the base64util
decoder and the Key Manager Decrypt contract. As in the source, the
cache-reuse branch sets the real column from the plaintext cache and then
falls through to the decode and Decrypt calls (no return statement). -/
def callbackKMSDecrypt (decode : String → Except String (List Nat))
    (decrypt : String → List Nat → Except String (List Nat))
    (keyID table column : String) (scope : Scope) : DecryptResult :=
  if scope.tableName ≠ table then ⟨scope, 0⟩
  else if scope.hasError then ⟨scope, 0⟩
  else
    let real := getFieldString scope column
    if real.ok = false then
      ⟨scope.log ("skipping decryption, " ++ column ++ " is not a string"), 0⟩
    else if real.value = "" then
      ⟨scope.log ("skipping decryption, " ++ column ++ " is blank"), 0⟩
    else
      let ciphertext := real.value
      let ptCache := getFieldString scope (column ++ "PlaintextCache")
      let ctCache := getFieldString scope (column ++ "CiphertextCache")
      let ptrField := (getFieldString scope (column ++ "Ptr")).field
      let scope1 :=
        if ptCache.ok && ctCache.ok && ciphertext = ctCache.value then
          scope.setField column (.str ptCache.value)
        else scope
      match decode ciphertext with
      | .error _ => ⟨scope1.err ("cannot decrypt " ++ column ++ ", invalid ciphertext"), 0⟩
      | .ok cbytes =>
        match decrypt keyID cbytes with
        | .error e => ⟨scope1.err ("failed to decrypt " ++ column ++ ": " ++ e), 1⟩
        | .ok pbytes =>
          let plaintext := bytesToStr pbytes
          let scope2 := scope1.setField column (.str plaintext)
          let scope3 :=
            match ptrField with
            | some _ => scope2.setField (column ++ "Ptr") (.str plaintext)
            | none => scope2
          let scope4 :=
            if ptCache.ok then scope3.setField (column ++ "PlaintextCache") (.str plaintext)
            else scope3
          let scope5 :=
            if ctCache.ok then scope4.setField (column ++ "CiphertextCache") (.str ciphertext)
            else scope4
          ⟨scope5, 1⟩

-- ## callbackHMAC

/-- Result of one run of the HMAC callback: the final scope and the number
of invocations of the hash function. -/
structure HMACResult where
  scope : Scope
  hashCalls : Nat
deriving DecidableEq

/-- callbackHMAC from database.go, parametric in the hash function (e.g.
db.GenerateVerificationCodeHMAC). -/
def callbackHMAC (hashFunc : String → Except String String)
    (table column : String) (scope : Scope) : HMACResult :=
  if scope.tableName ≠ table then ⟨scope, 0⟩
  else if scope.hasError then ⟨scope, 0⟩
  else
    let fs := getFieldString scope column
    if fs.ok = false then
      ⟨scope.log ("skipping HMAC, " ++ column ++ " is not a string"), 0⟩
    else if fs.value = "" then
      ⟨scope.log ("skipping HMAC, " ++ column ++ " is blank"), 0⟩
    else
      match hashFunc fs.value with
      | .error e => ⟨scope.err ("failed to generate HMAC for column " ++ column ++ ": " ++ e), 1⟩
      | .ok sig => ⟨scope.setField column (.str sig), 1⟩

-- ## callbackPurgeCache

/-- A cache entry address: namespace and key. -/
structure CacheKey where
  ns : String
  key : String
deriving DecidableEq

/-- Outcome of the column-collection loop of callbackPurgeCache: the first
problem in declared column order, or the rendered values of all columns. -/
inductive PurgeKeys where
  | errMissing (c : String)
  | errInterface (c : String)
  | nilValue
  | collected (ks : List String)
deriving DecidableEq

/-- The loop of callbackPurgeCache: for each configured column in order, a
missing field or a non-interfaceable field is an error, a nil value causes
a silent return, otherwise the %v rendering of the value is collected. -/
def collectPurgeKeys (scope : Scope) : List String → PurgeKeys
  | [] => .collected []
  | c :: rest =>
    match scope.findField c with
    | none => .errMissing c
    | some f =>
      if f.canInterface = false then .errInterface c
      else
        match f.value with
        | none => .nilValue
        | some v =>
          match collectPurgeKeys scope rest with
          | .collected ks => .collected (renderValue v :: ks)
          | e => e

/-- Result of one run of the purge callback: the final scope and the list
of cache Delete calls issued (at most one). -/
structure PurgeResult where
  scope : Scope
  deletes : List CacheKey
deriving DecidableEq

/-- callbackPurgeCache from database.go, parametric in the cacher Delete
contract (none = success, some e = CacheError). The composite key joins the
rendered column values with a pipe; a Delete failure is logged and does not
signal a scope error. -/
def callbackPurgeCache (deleteErr : CacheKey → Option String)
    (ns table : String) (columns : List String) (scope : Scope) : PurgeResult :=
  if scope.tableName ≠ table then ⟨scope, []⟩
  else if scope.hasError then ⟨scope, []⟩
  else
    match collectPurgeKeys scope columns with
    | .errMissing c => ⟨scope.err ("table " ++ table ++ " has no column " ++ c), []⟩
    | .errInterface c => ⟨scope.err (table ++ "." ++ c ++ " cannot interface"), []⟩
    | .nilValue => ⟨scope, []⟩
    | .collected ks =>
      let key : CacheKey := ⟨ns, String.intercalate ("|") ks⟩
      match deleteErr key with
      | some e => ⟨scope.log ("failed to delete cache key: " ++ e), [key]⟩
      | none => ⟨scope.log ("cleared cache for " ++ ns), [key]⟩

-- ## withRetries (src lines 741-749) over the go-retry library semantics

/-- Outcome of one execution of a retried operation: success, an error
wrapped in retry.RetryableError, or a bare (non-retryable) error. -/
inductive OpResult where
  | ok
  | retryable (e : String)
  | fatal (e : String)
deriving DecidableEq

/-- Outcome of retry.Do: the final result, the number of executions of the
operation, and the total seconds slept between executions. -/
structure RetryOutcome where
  result : Except String Unit
  attempts : Nat
  totalDelaySeconds : Nat

/-- retry.Do with a constant backoff capped by retry.WithMaxRetries: the
operation runs, a non-retryable error returns immediately, a retryable
error consumes one of the remaining retries (sleeping the constant delay)
or, when none remain, surfaces the unwrapped last error. The operation is
indexed by its attempt number. -/
def retryDo (f : Nat → OpResult) (delay : Nat) : Nat → Nat → Nat → RetryOutcome
  | attempt, remaining, acc =>
    match f attempt, remaining with
    | .ok, _ => ⟨.ok (), attempt + 1, acc⟩
    | .fatal e, _ => ⟨.error e, attempt + 1, acc⟩
    | .retryable e, 0 => ⟨.error e, attempt + 1, acc⟩
    | .retryable _, r + 1 => retryDo f delay (attempt + 1) r (acc + delay)

/-- withRetries from database.go: retry.NewConstant(1 second) capped by
retry.WithMaxRetries(30, b), run through retry.Do. -/
def withRetries (f : Nat → OpResult) : RetryOutcome :=
  retryDo f 1 0 30 0

-- ## Derived helpers used by the theorems

/-- The text a configured column contributes to the composite cache key:
some rendered value when the column is present, interfaceable and non-nil. -/
def columnText (scope : Scope) (c : String) : Option String :=
  match scope.findField c with
  | none => none
  | some f =>
    if f.canInterface = false then none
    else f.value.map renderValue

/-- A record field holding a string value, valid and interfaceable. -/
def strField (n v : String) : GoField := ⟨n, true, true, some (.str v)⟩

-- ## Helper lemmas about the purge-cache column loop

/-- When every configured column is present, interfaceable and non-nil, the
collection loop returns the rendered values in declared order. -/
theorem collectPurgeKeys_all_some (scope : Scope) :
    ∀ columns : List String, (∀ c ∈ columns, (columnText scope c).isSome = true) →
    collectPurgeKeys scope columns =
      .collected (columns.map (fun c => (columnText scope c).getD ""))
  | [], _ => rfl
  | c :: rest, h => by
    have hc := h c (List.mem_cons_self c rest)
    have hrest := collectPurgeKeys_all_some scope rest
      (fun c' hc' => h c' (List.mem_cons_of_mem _ hc'))
    cases hf : scope.findField c with
    | none => simp [columnText, hf] at hc
    | some f =>
      by_cases hci : f.canInterface = false
      · simp [columnText, hf, hci] at hc
      · cases hv : f.value with
        | none => simp [columnText, hf, hci, hv] at hc
        | some v =>
          simp [collectPurgeKeys, hf, hci, hv, hrest, columnText]

/-- A column absent from the record is reported as the missing-column error,
provided every column before it in declared order is usable. -/
theorem collectPurgeKeys_missing (scope : Scope) (c : String) (cs2 : List String)
    (hmiss : scope.findField c = none) :
    ∀ cs1 : List String, (∀ c' ∈ cs1, (columnText scope c').isSome = true) →
    collectPurgeKeys scope (cs1 ++ c :: cs2) = .errMissing c
  | [], _ => by simp [collectPurgeKeys, hmiss]
  | c' :: cs1', h => by
    have hc := h c' (List.mem_cons_self c' cs1')
    have hrest := collectPurgeKeys_missing scope c cs2 hmiss cs1'
      (fun x hx => h x (List.mem_cons_of_mem _ hx))
    cases hf : scope.findField c' with
    | none => simp [columnText, hf] at hc
    | some f =>
      by_cases hci : f.canInterface = false
      · simp [columnText, hf, hci] at hc
      · cases hv : f.value with
        | none => simp [columnText, hf, hci, hv] at hc
        | some v =>
          simp [collectPurgeKeys, hf, hci, hv, hrest]

/-- A present column whose value is nil makes the loop return the silent
nil-value outcome, provided every column before it is usable. -/
theorem collectPurgeKeys_nil (scope : Scope) (c : String) (cs2 : List String) (f0 : GoField)
    (hf0 : scope.findField c = some f0) (hci0 : f0.canInterface = true) (hv0 : f0.value = none) :
    ∀ cs1 : List String, (∀ c' ∈ cs1, (columnText scope c').isSome = true) →
    collectPurgeKeys scope (cs1 ++ c :: cs2) = .nilValue
  | [], _ => by simp [collectPurgeKeys, hf0, hci0, hv0]
  | c' :: cs1', h => by
    have hc := h c' (List.mem_cons_self c' cs1')
    have hrest := collectPurgeKeys_nil scope c cs2 f0 hf0 hci0 hv0 cs1'
      (fun x hx => h x (List.mem_cons_of_mem _ hx))
    cases hf : scope.findField c' with
    | none => simp [columnText, hf] at hc
    | some f =>
      by_cases hci : f.canInterface = false
      · simp [columnText, hf, hci] at hc
      · cases hv : f.value with
        | none => simp [columnText, hf, hci, hv] at hc
        | some v =>
          simp [collectPurgeKeys, hf, hci, hv, hrest]

-- ## Helper lemmas about the retry loop

/-- retry.Do with at most r remaining retries executes the operation at most
r + 1 more times. -/
theorem retryDo_attempts_le (f : Nat → OpResult) (delay : Nat) :
    ∀ (r a acc : Nat), (retryDo f delay a r acc).attempts ≤ a + r + 1
  | 0, a, acc => by cases hf : f a <;> simp [retryDo, hf]
  | r + 1, a, acc => by
    cases hf : f a with
    | ok => simp [retryDo, hf]
    | fatal e => simp [retryDo, hf]
    | retryable e =>
      have ih := retryDo_attempts_le f delay r (a + 1) (acc + delay)
      have hstep : retryDo f delay a (r + 1) acc = retryDo f delay (a + 1) r (acc + delay) := by
        simp [retryDo, hf]
      rw [hstep]
      omega

/-- An operation that always fails retryably exhausts all retries, sleeping
the constant delay between consecutive executions, and surfaces the last
error unwrapped. -/
theorem retryDo_all_retryable (f : Nat → OpResult) (g : Nat → String) (delay : Nat)
    (h : ∀ n, f n = .retryable (g n)) :
    ∀ (r a acc : Nat), retryDo f delay a r acc = ⟨.error (g (a + r)), a + r + 1, acc + r * delay⟩
  | 0, a, acc => by simp [retryDo, h a]
  | r + 1, a, acc => by
    have ih := retryDo_all_retryable f g delay h r (a + 1) (acc + delay)
    have hstep : retryDo f delay a (r + 1) acc = retryDo f delay (a + 1) r (acc + delay) := by
      simp [retryDo, h a]
    have h1 : a + 1 + r = a + (r + 1) := by omega
    have h2 : acc + delay + r * delay = acc + (r + 1) * delay := by ring
    rw [hstep, ih, h1, h2]

-- ## Concrete records and collaborators used to evaluate the callbacks

/-- A deterministic toy Key Manager Encrypt: shifts every plaintext byte up
by three. -/
def kmEncryptShift : String → List Nat → Except String (List Nat) :=
  fun _ pt => .ok (pt.map (fun b => (b + 3) % 256))

/-- An SMS config record about to be written: auth-token plaintext set to
secret123, both cache columns present and empty. -/
def smsScopeFirstWrite : Scope :=
  ⟨("sms_configs"),
   [strField ("TwilioAuthToken") ("secret123"),
    strField ("TwilioAuthTokenPlaintextCache") (""),
    strField ("TwilioAuthTokenCiphertextCache") ("")],
   none, []⟩

/-- Outcome of the first write of secret123. -/
def smsFirstWriteRun : EncryptResult :=
  callbackKMSEncrypt kmEncryptShift ("k1") ("sms_configs") ("TwilioAuthToken") smsScopeFirstWrite

/-- The same record at the second write of the identical plaintext: the real
column holds secret123 again (as after the decrypt-after-write callback or a
fresh load), and the cache columns hold the pair stored by the first write. -/
def smsScopeSecondWrite : Scope :=
  smsFirstWriteRun.scope.setField ("TwilioAuthToken") (.str ("secret123"))

/-- Outcome of the second write of secret123. -/
def smsSecondWriteRun : EncryptResult :=
  callbackKMSEncrypt kmEncryptShift ("k1") ("sms_configs") ("TwilioAuthToken") smsScopeSecondWrite

/-- The base64util decoder restricted to the ciphertext arising in the
decrypt scenario (dmhmdWh3NDU2 is the RawStdEncoding of the shifted bytes of
secret123). -/
def b64DecodeDemo : String → Except String (List Nat) :=
  fun s => if s = "dmhmdWh3NDU2" then .ok (strBytes ("vhfuhw456")) else .error ("invalid base64")

/-- The inverse toy Key Manager Decrypt: shifts every ciphertext byte down
by three. -/
def kmDecryptShift : String → List Nat → Except String (List Nat) :=
  fun _ ct => .ok (ct.map (fun b => (b + 253) % 256))

/-- An SMS config record read back from storage: the real column holds the
stored ciphertext and both cache columns hold the matching cached pair, so
the decrypt-on-read cache optimization applies. -/
def smsScopeReadCacheHit : Scope :=
  ⟨("sms_configs"),
   [strField ("TwilioAuthToken") ("dmhmdWh3NDU2"),
    strField ("TwilioAuthTokenPlaintextCache") ("secret123"),
    strField ("TwilioAuthTokenCiphertextCache") ("dmhmdWh3NDU2")],
   none, []⟩

/-- A Key Manager Encrypt that always fails. -/
def kmEncryptFail : String → List Nat → Except String (List Nat) :=
  fun _ _ => .error ("rpc error: unavailable")

/-- An SMS config record being rewritten with an unchanged plaintext: the
plaintext equals the plaintext cache, so the encrypt-on-write cache
optimization applies. -/
def smsScopeWriteCacheHit : Scope :=
  ⟨("sms_configs"),
   [strField ("TwilioAuthToken") ("secret123"),
    strField ("TwilioAuthTokenPlaintextCache") ("secret123"),
    strField ("TwilioAuthTokenCiphertextCache") ("dmhmdWh3NDU2")],
   none, []⟩

-- ## The claims

/-- Claim C1 (code bug): the encrypt-on-write cache optimization does not
skip the Key Manager call. On a record whose plaintext equals the cached
plaintext with both cache columns populated, the callback still invokes
Key Manager Encrypt (the source sets the real column from the ciphertext
cache but falls through, missing a return), so writing the same non-empty
plaintext twice invokes Encrypt twice, not exactly once as claimed. -/
theorem C1_cache_hit_still_calls_encrypt :
    (getFieldString smsScopeSecondWrite ("TwilioAuthToken")).value =
      (getFieldString smsScopeSecondWrite ("TwilioAuthTokenPlaintextCache")).value ∧
    smsSecondWriteRun.encryptCalls = 1 ∧
    smsFirstWriteRun.encryptCalls + smsSecondWriteRun.encryptCalls = 2 := by
  decide

/-- Claim C2 (code bug): the decrypt-on-read cache optimization does not
skip the Key Manager call. On a record whose stored ciphertext equals the
cached ciphertext with both cache columns populated, the callback sets the
real column from the plaintext cache but then still decodes and invokes Key
Manager Decrypt (missing return in the source). -/
theorem C2_cache_hit_still_calls_decrypt :
    (getFieldString smsScopeReadCacheHit ("TwilioAuthToken")).value =
      (getFieldString smsScopeReadCacheHit ("TwilioAuthTokenCiphertextCache")).value ∧
    (callbackKMSDecrypt b64DecodeDemo kmDecryptShift ("k1") ("sms_configs") ("TwilioAuthToken")
      smsScopeReadCacheHit).decryptCalls = 1 := by
  decide

/-- Claim C3 (code bug): when Key Manager Encrypt fails, the callback does
signal a scope error, but on a cache-hit record the real column has already
been overwritten with the cached ciphertext before the failing call (the
fall-through of the cache branch), so the record's columns are not left
unchanged as claimed. -/
theorem C3_encrypt_error_mutates_real_column :
    (getFieldString smsScopeWriteCacheHit ("TwilioAuthToken")).value = "secret123" ∧
    (callbackKMSEncrypt kmEncryptFail ("k1") ("sms_configs") ("TwilioAuthToken")
      smsScopeWriteCacheHit).scope.scopeErr.isSome = true ∧
    (getFieldString (callbackKMSEncrypt kmEncryptFail ("k1") ("sms_configs") ("TwilioAuthToken")
      smsScopeWriteCacheHit).scope ("TwilioAuthToken")).value = "dmhmdWh3NDU2" := by
  decide

/-- Claim C4: initialHMAC (Sign) fails on an empty resolved key set, and on
a non-empty set computes the HMAC-SHA512 of the data keyed by the first
(primary) key only, encoded with unpadded URL-safe base64; it is a pure
function of (primary key, data), hence deterministic, and independent of
the retired tail of the key set. -/
theorem C4_sign_uses_primary_key_only
    (sha : List Nat → List Nat) (keys : List (List Nat)) (data : String) :
    (keys = [] → initialHMAC sha keys data = .error ("expected at least 1 hmac key")) ∧
    (∀ k ks, keys = k :: ks →
      initialHMAC sha keys data = .ok (base64RawURLEncode (hmacSha512 sha k (strBytes data))) ∧
      ∀ ks', initialHMAC sha (k :: ks') data = initialHMAC sha keys data) := by
  refine ⟨fun h => by simp [h, initialHMAC], fun k ks hk => ?_⟩
  subst hk
  exact ⟨rfl, fun ks' => rfl⟩

/-- Claim C4 witness: concrete empty-set failure and independence from the
retired keys. -/
theorem C4_sign_uses_primary_key_only_witness :
    initialHMAC (fun l => l) [] ("123456") = .error ("expected at least 1 hmac key") ∧
    initialHMAC (fun l => l) [[1, 2], [9]] ("123456") =
      initialHMAC (fun l => l) [[1, 2], [7, 7]] ("123456") := by
  refine ⟨(C4_sign_uses_primary_key_only (fun l => l) [] ("123456")).1 rfl, ?_⟩
  have h := ((C4_sign_uses_primary_key_only (fun l => l) [[1, 2], [9]] ("123456")).2
    [1, 2] [[9]] rfl).2 [[7, 7]]
  exact h.symm

/-- Claim C5: allAllowedHMACs returns exactly one signature per key of the
resolved set, in key order, each computed as initialHMAC would with that
key; its head is the value initialHMAC (Sign) produces for the same set,
and the signature produced under any (possibly retired) key of the set is a
member of the returned sequence. -/
theorem C5_all_signatures_per_key
    (sha : List Nat → List Nat) (keys : List (List Nat)) (data : String) :
    allAllowedHMACs sha keys data =
      .ok (keys.map (fun k => base64RawURLEncode (hmacSha512 sha k (strBytes data)))) ∧
    (∀ k ks, keys = k :: ks → ∀ s, initialHMAC sha keys data = .ok s →
      allAllowedHMACs sha keys data =
        .ok (s :: ks.map (fun k' => base64RawURLEncode (hmacSha512 sha k' (strBytes data))))) ∧
    (∀ k, k ∈ keys → ∀ s, initialHMAC sha [k] data = .ok s →
      ∀ sigs, allAllowedHMACs sha keys data = .ok sigs → s ∈ sigs) := by
  refine ⟨rfl, ?_, ?_⟩
  · intro k ks hk s hs
    subst hk
    simp [initialHMAC] at hs
    simp [allAllowedHMACs, hs]
  · intro k hk s hs sigs hsigs
    simp [initialHMAC] at hs
    simp [allAllowedHMACs] at hsigs
    subst hsigs
    exact List.mem_map.mpr ⟨k, hk, hs⟩

/-- Claim C5 witness: with resolved set [kNew, kOld], the signature a record
received under kOld alone is a member of the returned sequence, whose head
is the primary signature. -/
theorem C5_all_signatures_per_key_witness :
    base64RawURLEncode (hmacSha512 (fun l => l) [2] (strBytes ("123456"))) ∈
      (([[1], [2]] : List (List Nat)).map
        (fun k => base64RawURLEncode (hmacSha512 (fun l => l) k (strBytes ("123456"))))) := by
  exact (C5_all_signatures_per_key (fun l => l) [[1], [2]] ("123456")).2.2 [2] (by simp) _ rfl _
    (C5_all_signatures_per_key (fun l => l) [[1], [2]] ("123456")).1

/-- Claim C6: on the rule's table with a clean scope, when every configured
identifying column is present, interfaceable and non-nil, the purge
callback deletes exactly the cache entry at the configured namespace and
the pipe-joined rendered column values in declared order, signalling no
error; and when a configured column is absent from the record (all columns
before it being usable), it signals a hard scope error and deletes
nothing. -/
theorem C6_invalidate_composite_key
    (deleteErr : CacheKey → Option String) (ns table : String)
    (columns : List String) (scope : Scope)
    (htab : scope.tableName = table) (herr : scope.scopeErr = none) :
    ((∀ c ∈ columns, (columnText scope c).isSome = true) →
      (callbackPurgeCache deleteErr ns table columns scope).deletes =
        [⟨ns, String.intercalate ("|") (columns.map (fun c => (columnText scope c).getD ""))⟩] ∧
      (callbackPurgeCache deleteErr ns table columns scope).scope.scopeErr = none) ∧
    (∀ cs1 c cs2, columns = cs1 ++ c :: cs2 →
      (∀ c' ∈ cs1, (columnText scope c').isSome = true) →
      scope.findField c = none →
      (callbackPurgeCache deleteErr ns table columns scope).scope.scopeErr =
        some ("table " ++ table ++ " has no column " ++ c) ∧
      (callbackPurgeCache deleteErr ns table columns scope).deletes = []) := by
  constructor
  · intro hall
    have hcollect := collectPurgeKeys_all_some scope columns hall
    cases hdel : deleteErr ⟨ns, String.intercalate ("|")
        (columns.map (fun c => (columnText scope c).getD ""))⟩ <;>
      simp [callbackPurgeCache, htab, herr, Scope.hasError, hcollect, hdel, Scope.log]
  · intro cs1 c cs2 hcols hpre hmiss
    subst hcols
    have hcollect := collectPurgeKeys_missing scope c cs2 hmiss cs1 hpre
    simp [callbackPurgeCache, htab, herr, Scope.hasError, hcollect, Scope.err]

/-- A realm record with id 42, as in the specification scenario. -/
def realmScope42 : Scope :=
  ⟨("realms"), [⟨("id"), true, true, some (.other ("42"))⟩], none, []⟩

/-- Claim C6 witness: updating realm row 42 deletes exactly the cache entry
at namespace realms:by_id with key 42 and raises no error. -/
theorem C6_invalidate_composite_key_witness :
    (callbackPurgeCache (fun _ => none) ("realms:by_id") ("realms") [("id")] realmScope42).deletes =
      [⟨("realms:by_id"), ("42")⟩] ∧
    (callbackPurgeCache (fun _ => none) ("realms:by_id") ("realms") [("id")]
      realmScope42).scope.scopeErr = none := by
  have h := (C6_invalidate_composite_key (fun _ => none) ("realms:by_id") ("realms") [("id")]
    realmScope42 rfl rfl).1 (by decide)
  exact ⟨h.1.trans (by decide), h.2⟩

/-- Claim C7: on a record whose configured column holds the empty string,
encrypt-on-write and HMAC signing are no-ops: the Key Manager and the hash
function are invoked zero times, a skip line is logged, and the record's
fields are left unchanged. -/
theorem C7_empty_value_noop
    (encrypt : String → List Nat → Except String (List Nat))
    (hashFunc : String → Except String String)
    (keyID table column : String) (scope : Scope)
    (htab : scope.tableName = table) (herr : scope.scopeErr = none)
    (hok : (getFieldString scope column).ok = true)
    (hempty : (getFieldString scope column).value = "") :
    callbackKMSEncrypt encrypt keyID table column scope =
      ⟨scope.log ("skipping encryption, " ++ column ++ " is blank"), 0⟩ ∧
    callbackHMAC hashFunc table column scope =
      ⟨scope.log ("skipping HMAC, " ++ column ++ " is blank"), 0⟩ ∧
    (callbackKMSEncrypt encrypt keyID table column scope).scope.fields = scope.fields ∧
    (callbackHMAC hashFunc table column scope).scope.fields = scope.fields := by
  refine ⟨?_, ?_, ?_, ?_⟩ <;>
    simp [callbackKMSEncrypt, callbackHMAC, htab, herr, Scope.hasError, hok, hempty, Scope.log]

/-- A realm record whose webhook secret is the empty string. -/
def realmScopeEmptySecret : Scope :=
  ⟨("realms"), [strField ("UserReportWebhookSecret") ("")], none, []⟩

/-- Claim C7 witness: encrypting and signing the empty webhook secret makes
no Key Manager or hash calls and leaves the fields unchanged. -/
theorem C7_empty_value_noop_witness :
    callbackKMSEncrypt (fun _ pt => Except.ok pt) ("k1") ("realms") ("UserReportWebhookSecret")
      realmScopeEmptySecret =
      ⟨realmScopeEmptySecret.log ("skipping encryption, UserReportWebhookSecret is blank"), 0⟩ ∧
    callbackHMAC (fun v => Except.ok v) ("realms") ("UserReportWebhookSecret")
      realmScopeEmptySecret =
      ⟨realmScopeEmptySecret.log ("skipping HMAC, UserReportWebhookSecret is blank"), 0⟩ := by
  have h := C7_empty_value_noop (fun _ pt => Except.ok pt) (fun v => Except.ok v) ("k1")
    ("realms") ("UserReportWebhookSecret") realmScopeEmptySecret rfl rfl (by decide) (by decide)
  exact ⟨h.1, h.2.1⟩

/-- Claim C8: when the cache Delete call fails, the purge callback logs the
failure and signals no scope error: the resulting scope differs from the
input only by the appended log line, so the surrounding mutation still
succeeds. -/
theorem C8_delete_failure_nonfatal
    (deleteErr : CacheKey → Option String) (ns table : String)
    (columns : List String) (scope : Scope) (e : String)
    (htab : scope.tableName = table) (herr : scope.scopeErr = none)
    (hall : ∀ c ∈ columns, (columnText scope c).isSome = true)
    (hdel : deleteErr ⟨ns, String.intercalate ("|")
      (columns.map (fun c => (columnText scope c).getD ""))⟩ = some e) :
    callbackPurgeCache deleteErr ns table columns scope =
      ⟨scope.log ("failed to delete cache key: " ++ e),
       [⟨ns, String.intercalate ("|") (columns.map (fun c => (columnText scope c).getD ""))⟩]⟩ ∧
    (callbackPurgeCache deleteErr ns table columns scope).scope.scopeErr = none := by
  have hcollect := collectPurgeKeys_all_some scope columns hall
  constructor
  · simp [callbackPurgeCache, htab, herr, Scope.hasError, hcollect, hdel]
  · simp [callbackPurgeCache, htab, herr, Scope.hasError, hcollect, hdel, Scope.log]

/-- A user record with id 7. -/
def userScope7 : Scope :=
  ⟨("users"), [⟨("id"), true, true, some (.other ("7"))⟩], none, []⟩

/-- Claim C8 witness: a failing cache Delete on the users:by_id rule is
logged and leaves the scope error unset. -/
theorem C8_delete_failure_nonfatal_witness :
    callbackPurgeCache (fun _ => some ("redis: connection refused")) ("users:by_id") ("users")
      [("id")] userScope7 =
      ⟨userScope7.log ("failed to delete cache key: redis: connection refused"),
       [⟨("users:by_id"), ("7")⟩]⟩ := by
  have h := C8_delete_failure_nonfatal (fun _ => some ("redis: connection refused"))
    ("users:by_id") ("users") [("id")] userScope7 ("redis: connection refused") rfl rfl
    (by decide) (by decide)
  exact h.1.trans (by decide)

/-- Claim C10: when a configured identifying column exists on the record but
its value is nil (all columns before it being usable), the purge callback
returns the scope untouched: no cache deletion, no error, not even a log
line — a silent skip, unlike the hard error for an absent column. -/
theorem C10_nil_value_silent_skip
    (deleteErr : CacheKey → Option String) (ns table : String)
    (cs1 : List String) (c : String) (cs2 : List String) (f : GoField) (scope : Scope)
    (htab : scope.tableName = table) (herr : scope.scopeErr = none)
    (hpre : ∀ c' ∈ cs1, (columnText scope c').isSome = true)
    (hf : scope.findField c = some f) (hci : f.canInterface = true) (hv : f.value = none) :
    callbackPurgeCache deleteErr ns table (cs1 ++ c :: cs2) scope = ⟨scope, []⟩ := by
  have hcollect := collectPurgeKeys_nil scope c cs2 f hf hci hv cs1 hpre
  simp [callbackPurgeCache, htab, herr, Scope.hasError, hcollect]

/-- A user record whose email field holds a nil value. -/
def userScopeNilEmail : Scope :=
  ⟨("users"), [⟨("email"), true, true, none⟩], none, []⟩

/-- Claim C10 witness: a nil email value makes the users:by_email rule skip
silently, deleting nothing and raising no error. -/
theorem C10_nil_value_silent_skip_witness :
    callbackPurgeCache (fun _ => none) ("users:by_email") ("users") [("email")]
      userScopeNilEmail = ⟨userScopeNilEmail, []⟩ :=
  C10_nil_value_silent_skip (fun _ => none) ("users:by_email") ("users") [] ("email") []
    ⟨("email"), true, true, none⟩ userScopeNilEmail rfl rfl (by decide) rfl rfl rfl

/-- Claim C9 counterexample: an operation that always fails retryably is
executed 31 times by withRetries, so the number of attempts is not bounded
by 30 as the claim states. -/
theorem C9_at_most_thirty_refuted :
    ¬ (withRetries (fun _ => OpResult.retryable ("connection refused"))).attempts ≤ 30 := by
  decide

/-- Claim C9 (amended): withRetries executes the operation at most 31 times
(one initial attempt plus at most 30 retries) with a fixed one-second delay
between consecutive executions; a non-retryable error aborts immediately
after the failing attempt, and exhausting all attempts surfaces the last
error. -/
theorem C9_with_retries_amended :
    (∀ f : Nat → OpResult, (withRetries f).attempts ≤ 31) ∧
    (∀ (f : Nat → OpResult) (e : String), f 0 = OpResult.fatal e →
      withRetries f = ⟨.error e, 1, 0⟩) ∧
    (∀ (f : Nat → OpResult) (g : Nat → String), (∀ n, f n = OpResult.retryable (g n)) →
      withRetries f = ⟨.error (g 30), 31, 30⟩) := by
  refine ⟨?_, ?_, ?_⟩
  · intro f
    have := retryDo_attempts_le f 1 30 0 0
    simpa [withRetries] using this
  · intro f e hf
    simp [withRetries, retryDo, hf]
  · intro f g h
    have := retryDo_all_retryable f g 1 h 30 0 0
    simpa [withRetries] using this

/-- Claim C9 witness: a non-retryable failure aborts after one execution,
and an always-retryable failure runs 31 executions with 30 seconds of total
delay and surfaces the last error. -/
theorem C9_with_retries_amended_witness :
    withRetries (fun _ => OpResult.fatal ("boom")) = ⟨.error ("boom"), 1, 0⟩ ∧
    withRetries (fun _ => OpResult.retryable ("ping")) = ⟨.error ("ping"), 31, 30⟩ :=
  ⟨C9_with_retries_amended.2.1 _ _ rfl,
   C9_with_retries_amended.2.2 _ (fun _ => "ping") (fun _ => rfl)⟩
